import Mathlib

/-!
Shallow embedding of the RFC 9839 Unicode-subset validation library
(Rust crate `rfc9839`, file `src/lib.rs`).

Code points are modelled as `Nat` (the Rust code uses `u32`; all
comparisons in the source are unsigned comparisons, which coincide
with `Nat` comparisons on values below `2 ^ 32`).  Rust's `char`
(a Unicode scalar value) is modelled by Lean's `Char`, which carries
exactly the same invariant; Rust's `&str` is modelled as `List Char`
(its sequence of chars); byte slices `&[u8]` are `List Nat` with
every element below `256`.
-/

/-- A Unicode code point range (inclusive); embeds the Rust struct
`RunePair { lo: u32, hi: u32 }`. -/
structure RunePair where
  lo : Nat
  hi : Nat
deriving DecidableEq

/-- Embeds `RunePair::contains(&self, ch: char)`:
`code >= self.lo && code <= self.hi` with `code = ch as u32`. -/
def RunePair.contains (p : RunePair) (ch : Char) : Bool :=
  ch.toNat ≥ p.lo && ch.toNat ≤ p.hi

/-- The `XML_CHARS` constant table from the source, in source order. -/
def XML_CHARS : List RunePair :=
  [⟨0x20, 0xD7FF⟩,
   ⟨0xA, 0xA⟩,
   ⟨0xE000, 0xFFFD⟩,
   ⟨0x9, 0x9⟩,
   ⟨0xD, 0xD⟩,
   ⟨0x10000, 0x10FFFF⟩]

/-- The `UNICODE_ASSIGNABLES` constant table from the source, in source order. -/
def UNICODE_ASSIGNABLES : List RunePair :=
  [⟨0x20, 0x7E⟩,
   ⟨0xA, 0xA⟩,
   ⟨0xA0, 0xD7FF⟩,
   ⟨0xE000, 0xFDCF⟩,
   ⟨0xFDF0, 0xFFFD⟩,
   ⟨0x9, 0x9⟩,
   ⟨0xD, 0xD⟩,
   ⟨0x10000, 0x1FFFD⟩,
   ⟨0x20000, 0x2FFFD⟩,
   ⟨0x30000, 0x3FFFD⟩,
   ⟨0x40000, 0x4FFFD⟩,
   ⟨0x50000, 0x5FFFD⟩,
   ⟨0x60000, 0x6FFFD⟩,
   ⟨0x70000, 0x7FFFD⟩,
   ⟨0x80000, 0x8FFFD⟩,
   ⟨0x90000, 0x9FFFD⟩,
   ⟨0xA0000, 0xAFFFD⟩,
   ⟨0xB0000, 0xBFFFD⟩,
   ⟨0xC0000, 0xCFFFD⟩,
   ⟨0xD0000, 0xDFFFD⟩,
   ⟨0xE0000, 0xEFFFD⟩,
   ⟨0xF0000, 0xFFFFD⟩,
   ⟨0x100000, 0x10FFFD⟩]

/-- Embeds `subset_contains(subset: &[RunePair], ch: char)`:
`subset.iter().any(|pair| pair.contains(ch))`. -/
def subset_contains (subset : List RunePair) (ch : Char) : Bool :=
  subset.any (fun pair => pair.contains ch)

/-- Embeds `subset_contains_u32(subset: &[RunePair], code: u32)`:
`subset.iter().any(|pair| code >= pair.lo && code <= pair.hi)`. -/
def subset_contains_u32 (subset : List RunePair) (code : Nat) : Bool :=
  subset.any (fun pair => code ≥ pair.lo && code ≤ pair.hi)

/-- Models `char::from_u32` from the Rust standard library, used by
`is_rune_unicode_scalar`: returns `some` exactly when the argument is a
Unicode scalar value (at most `0x10FFFF` and not a surrogate). -/
def char_from_u32 (r : Nat) : Option Char :=
  if h : r.isValidChar then some (Char.ofNatAux r h) else none

/-- Embeds `is_rune_unicode_scalar(r: u32)`: `char::from_u32(r).is_some()`. -/
def is_rune_unicode_scalar (r : Nat) : Bool :=
  (char_from_u32 r).isSome

/-- Embeds `is_rune_xml_char(r: u32)`. -/
def is_rune_xml_char (r : Nat) : Bool :=
  subset_contains_u32 XML_CHARS r

/-- Embeds `is_rune_unicode_assignable(r: u32)`. -/
def is_rune_unicode_assignable (r : Nat) : Bool :=
  subset_contains_u32 UNICODE_ASSIGNABLES r

/-- Embeds `is_char_xml_char(ch: char)`. -/
def is_char_xml_char (ch : Char) : Bool :=
  subset_contains XML_CHARS ch

/-- Embeds `is_char_unicode_assignable(ch: char)`. -/
def is_char_unicode_assignable (ch : Char) : Bool :=
  subset_contains UNICODE_ASSIGNABLES ch

/-- Embeds `is_string_unicode_scalars(_s: &str)`: the source returns
`true` unconditionally. -/
def is_string_unicode_scalars (_s : List Char) : Bool :=
  true

/-- Embeds `is_string_xml_chars(s: &str)`: `s.chars().all(is_char_xml_char)`. -/
def is_string_xml_chars (s : List Char) : Bool :=
  s.all is_char_xml_char

/-- Embeds `is_string_unicode_assignables(s: &str)`:
`s.chars().all(is_char_unicode_assignable)`. -/
def is_string_unicode_assignables (s : List Char) : Bool :=
  s.all is_char_unicode_assignable

/-- Prepend the character decoded from code point `cp` to an already
decoded suffix, failing when `cp` is not a Unicode scalar value (this
is how a strict decoder rejects surrogate encodings and code points
above `0x10FFFF`). -/
def cons_decoded (cp : Nat) (rest : Option (List Char)) : Option (List Char) :=
  match char_from_u32 cp with
  | some ch => rest.map (fun s => ch :: s)
  | none => none

/-- Models the strict UTF-8 decoder used by the source through
`std::str::from_utf8` (an external collaborator of the crate): it
rejects stray continuation bytes, truncated multi-byte sequences,
overlong encodings, surrogate encodings, and code points above
`0x10FFFF`, exactly as the Rust standard library's validator does.
Returns the decoded character sequence on success. -/
def utf8_decode : List Nat → Option (List Char)
  | [] => some []
  | b :: rest =>
    if b < 0x80 then
      cons_decoded b (utf8_decode rest)
    else if b < 0xC0 then
      none
    else if b < 0xE0 then
      match rest with
      | b1 :: rest₁ =>
        if 0x80 ≤ b1 ∧ b1 < 0xC0 then
          if (b - 0xC0) * 0x40 + (b1 - 0x80) < 0x80 then
            none
          else
            cons_decoded ((b - 0xC0) * 0x40 + (b1 - 0x80)) (utf8_decode rest₁)
        else none
      | [] => none
    else if b < 0xF0 then
      match rest with
      | b1 :: b2 :: rest₂ =>
        if (0x80 ≤ b1 ∧ b1 < 0xC0) ∧ (0x80 ≤ b2 ∧ b2 < 0xC0) then
          if (b - 0xE0) * 0x1000 + (b1 - 0x80) * 0x40 + (b2 - 0x80) < 0x800 then
            none
          else
            cons_decoded ((b - 0xE0) * 0x1000 + (b1 - 0x80) * 0x40 + (b2 - 0x80))
              (utf8_decode rest₂)
        else none
      | _ => none
    else if b < 0xF8 then
      match rest with
      | b1 :: b2 :: b3 :: rest₃ =>
        if (0x80 ≤ b1 ∧ b1 < 0xC0) ∧ (0x80 ≤ b2 ∧ b2 < 0xC0) ∧ (0x80 ≤ b3 ∧ b3 < 0xC0) then
          if (b - 0xF0) * 0x40000 + (b1 - 0x80) * 0x1000 + (b2 - 0x80) * 0x40 + (b3 - 0x80)
              < 0x10000 then
            none
          else
            cons_decoded
              ((b - 0xF0) * 0x40000 + (b1 - 0x80) * 0x1000 + (b2 - 0x80) * 0x40 + (b3 - 0x80))
              (utf8_decode rest₃)
        else none
      | _ => none
    else none

/-- Models UTF-8 encoding of a Unicode scalar value, as performed by
`char::encode_utf8` in the source's round-trip tests (`lib.rs` lines
488-504): the minimal-length encoding of the code point. -/
def utf8_encode (c : Nat) : List Nat :=
  if c < 0x80 then
    [c]
  else if c < 0x800 then
    [0xC0 + c / 0x40, 0x80 + c % 0x40]
  else if c < 0x10000 then
    [0xE0 + c / 0x1000, 0x80 + c / 0x40 % 0x40, 0x80 + c % 0x40]
  else
    [0xF0 + c / 0x40000, 0x80 + c / 0x1000 % 0x40, 0x80 + c / 0x40 % 0x40, 0x80 + c % 0x40]

/-- Embeds `is_utf8_unicode_scalars(bytes: &[u8])`:
`std::str::from_utf8(bytes).is_ok()`. -/
def is_utf8_unicode_scalars (bytes : List Nat) : Bool :=
  (utf8_decode bytes).isSome

/-- Embeds `is_utf8_xml_chars(bytes: &[u8])`: decode, then
`is_string_xml_chars` on success, `false` on failure. -/
def is_utf8_xml_chars (bytes : List Nat) : Bool :=
  match utf8_decode bytes with
  | some s => is_string_xml_chars s
  | none => false

/-- Embeds `is_utf8_unicode_assignables(bytes: &[u8])`: decode, then
`is_string_unicode_assignables` on success, `false` on failure. -/
def is_utf8_unicode_assignables (bytes : List Nat) : Bool :=
  match utf8_decode bytes with
  | some s => is_string_unicode_assignables s
  | none => false

/-- Packing a valid code point into a `Char` and reading it back is the
identity. -/
lemma toNat_ofNatAux (c : Nat) (h : c.isValidChar) : (Char.ofNatAux c h).toNat = c := rfl

/-- `is_rune_unicode_scalar` accepts exactly the valid Unicode scalar values. -/
lemma scalar_iff (c : Nat) : is_rune_unicode_scalar c = true ↔ Nat.isValidChar c := by
  simp [is_rune_unicode_scalar, char_from_u32]

/-- Characterisation of `is_rune_xml_char` as the union of the
`XML_CHARS` ranges. -/
lemma xml_iff (c : Nat) :
    is_rune_xml_char c = true ↔
      (c = 0x9 ∨ c = 0xA ∨ c = 0xD ∨ (0x20 ≤ c ∧ c ≤ 0xD7FF) ∨
        (0xE000 ≤ c ∧ c ≤ 0xFFFD) ∨ (0x10000 ≤ c ∧ c ≤ 0x10FFFF)) := by
  simp [is_rune_xml_char, subset_contains_u32, XML_CHARS]
  omega

/-- Characterisation of `is_rune_unicode_assignable` as the union of the
`UNICODE_ASSIGNABLES` ranges, with the seventeen astral-plane ranges
listed explicitly. -/
lemma assignable_explicit (c : Nat) :
    is_rune_unicode_assignable c = true ↔
      (c = 0x9 ∨ c = 0xA ∨ c = 0xD ∨ (0x20 ≤ c ∧ c ≤ 0x7E) ∨
        (0xA0 ≤ c ∧ c ≤ 0xD7FF) ∨ (0xE000 ≤ c ∧ c ≤ 0xFDCF) ∨
        (0xFDF0 ≤ c ∧ c ≤ 0xFFFD) ∨
        ((0x10000 ≤ c ∧ c ≤ 0x1FFFD) ∨ (0x20000 ≤ c ∧ c ≤ 0x2FFFD) ∨
         (0x30000 ≤ c ∧ c ≤ 0x3FFFD) ∨ (0x40000 ≤ c ∧ c ≤ 0x4FFFD) ∨
         (0x50000 ≤ c ∧ c ≤ 0x5FFFD) ∨ (0x60000 ≤ c ∧ c ≤ 0x6FFFD) ∨
         (0x70000 ≤ c ∧ c ≤ 0x7FFFD) ∨ (0x80000 ≤ c ∧ c ≤ 0x8FFFD) ∨
         (0x90000 ≤ c ∧ c ≤ 0x9FFFD) ∨ (0xA0000 ≤ c ∧ c ≤ 0xAFFFD) ∨
         (0xB0000 ≤ c ∧ c ≤ 0xBFFFD) ∨ (0xC0000 ≤ c ∧ c ≤ 0xCFFFD) ∨
         (0xD0000 ≤ c ∧ c ≤ 0xDFFFD) ∨ (0xE0000 ≤ c ∧ c ≤ 0xEFFFD) ∨
         (0xF0000 ≤ c ∧ c ≤ 0xFFFFD) ∨ (0x100000 ≤ c ∧ c ≤ 0x10FFFD))) := by
  simp [is_rune_unicode_assignable, subset_contains_u32, UNICODE_ASSIGNABLES]
  omega

/-- The per-plane description of the astral-plane ranges of the
`UNICODE_ASSIGNABLES` table coincides with the sixteen explicit ranges. -/
lemma plane_expand (c : Nat) :
    (∃ p, 1 ≤ p ∧ p ≤ 16 ∧ p * 0x10000 ≤ c ∧ c ≤ p * 0x10000 + 0xFFFD) ↔
      ((0x10000 ≤ c ∧ c ≤ 0x1FFFD) ∨ (0x20000 ≤ c ∧ c ≤ 0x2FFFD) ∨
       (0x30000 ≤ c ∧ c ≤ 0x3FFFD) ∨ (0x40000 ≤ c ∧ c ≤ 0x4FFFD) ∨
       (0x50000 ≤ c ∧ c ≤ 0x5FFFD) ∨ (0x60000 ≤ c ∧ c ≤ 0x6FFFD) ∨
       (0x70000 ≤ c ∧ c ≤ 0x7FFFD) ∨ (0x80000 ≤ c ∧ c ≤ 0x8FFFD) ∨
       (0x90000 ≤ c ∧ c ≤ 0x9FFFD) ∨ (0xA0000 ≤ c ∧ c ≤ 0xAFFFD) ∨
       (0xB0000 ≤ c ∧ c ≤ 0xBFFFD) ∨ (0xC0000 ≤ c ∧ c ≤ 0xCFFFD) ∨
       (0xD0000 ≤ c ∧ c ≤ 0xDFFFD) ∨ (0xE0000 ≤ c ∧ c ≤ 0xEFFFD) ∨
       (0xF0000 ≤ c ∧ c ≤ 0xFFFFD) ∨ (0x100000 ≤ c ∧ c ≤ 0x10FFFD)) := by
  constructor
  · rintro ⟨p, h1, h16, hlo, hhi⟩
    omega
  · rintro (h | h | h | h | h | h | h | h | h | h | h | h | h | h | h | h)
    exacts [⟨1, by omega⟩, ⟨2, by omega⟩, ⟨3, by omega⟩, ⟨4, by omega⟩,
      ⟨5, by omega⟩, ⟨6, by omega⟩, ⟨7, by omega⟩, ⟨8, by omega⟩,
      ⟨9, by omega⟩, ⟨10, by omega⟩, ⟨11, by omega⟩, ⟨12, by omega⟩,
      ⟨13, by omega⟩, ⟨14, by omega⟩, ⟨15, by omega⟩, ⟨16, by omega⟩]

/-- The character-level membership test agrees with the code-point-level
one at the character's code point. -/
lemma subset_contains_char (tbl : List RunePair) (ch : Char) :
    subset_contains tbl ch = subset_contains_u32 tbl ch.toNat := rfl

/-- Decoding the empty byte sequence yields the empty text. -/
lemma decode_nil : utf8_decode [] = some [] := rfl

/-- Decoding a one-byte UTF-8 encoding recovers its code point. -/
lemma decode_one (c : Nat) (h : Nat.isValidChar c) (hlt : c < 0x80) :
    utf8_decode [c] = some [Char.ofNatAux c h] := by
  have step : utf8_decode [c] =
      (if c < 0x80 then cons_decoded c (utf8_decode []) else
       if c < 0xC0 then none else
       if c < 0xE0 then none else
       if c < 0xF0 then none else
       if c < 0xF8 then none else none) := rfl
  rw [step, if_pos hlt, decode_nil, cons_decoded, char_from_u32, dif_pos h]
  rfl

/-- Decoding a two-byte UTF-8 encoding recovers its code point. -/
lemma decode_two (c : Nat) (h : Nat.isValidChar c) (h1 : 0x80 ≤ c) (h2 : c < 0x800) :
    utf8_decode [0xC0 + c / 0x40, 0x80 + c % 0x40] = some [Char.ofNatAux c h] := by
  have step : ∀ b b1 : Nat, utf8_decode [b, b1] =
      (if b < 0x80 then cons_decoded b (utf8_decode [b1]) else
       if b < 0xC0 then none else
       if b < 0xE0 then
         (if 0x80 ≤ b1 ∧ b1 < 0xC0 then
            (if (b - 0xC0) * 0x40 + (b1 - 0x80) < 0x80 then none
             else cons_decoded ((b - 0xC0) * 0x40 + (b1 - 0x80)) (utf8_decode []))
          else none)
       else
       if b < 0xF0 then none else
       if b < 0xF8 then none else none) := fun b b1 => rfl
  have e : (0xC0 + c / 0x40 - 0xC0) * 0x40 + (0x80 + c % 0x40 - 0x80) = c := by omega
  rw [step, if_neg (by omega), if_neg (by omega), if_pos (by omega),
    if_pos (by omega : 0x80 ≤ 0x80 + c % 0x40 ∧ 0x80 + c % 0x40 < 0xC0), e,
    if_neg (by omega), decode_nil, cons_decoded, char_from_u32, dif_pos h]
  rfl

/-- Decoding a three-byte UTF-8 encoding recovers its code point. -/
lemma decode_three (c : Nat) (h : Nat.isValidChar c) (h1 : 0x800 ≤ c) (h2 : c < 0x10000) :
    utf8_decode [0xE0 + c / 0x1000, 0x80 + c / 0x40 % 0x40, 0x80 + c % 0x40] =
      some [Char.ofNatAux c h] := by
  have step : ∀ b b1 b2 : Nat, utf8_decode [b, b1, b2] =
      (if b < 0x80 then cons_decoded b (utf8_decode [b1, b2]) else
       if b < 0xC0 then none else
       if b < 0xE0 then
         (if 0x80 ≤ b1 ∧ b1 < 0xC0 then
            (if (b - 0xC0) * 0x40 + (b1 - 0x80) < 0x80 then none
             else cons_decoded ((b - 0xC0) * 0x40 + (b1 - 0x80)) (utf8_decode [b2]))
          else none)
       else
       if b < 0xF0 then
         (if (0x80 ≤ b1 ∧ b1 < 0xC0) ∧ (0x80 ≤ b2 ∧ b2 < 0xC0) then
            (if (b - 0xE0) * 0x1000 + (b1 - 0x80) * 0x40 + (b2 - 0x80) < 0x800 then none
             else cons_decoded ((b - 0xE0) * 0x1000 + (b1 - 0x80) * 0x40 + (b2 - 0x80))
               (utf8_decode []))
          else none)
       else
       if b < 0xF8 then none else none) := fun b b1 b2 => rfl
  have e : (0xE0 + c / 0x1000 - 0xE0) * 0x1000 + (0x80 + c / 0x40 % 0x40 - 0x80) * 0x40 +
      (0x80 + c % 0x40 - 0x80) = c := by omega
  rw [step, if_neg (by omega), if_neg (by omega), if_neg (by omega), if_pos (by omega),
    if_pos (by constructor <;> omega), e, if_neg (by omega), decode_nil, cons_decoded,
    char_from_u32, dif_pos h]
  rfl

/-- Decoding a four-byte UTF-8 encoding recovers its code point. -/
lemma decode_four (c : Nat) (h : Nat.isValidChar c) (h1 : 0x10000 ≤ c) (h2 : c < 0x110000) :
    utf8_decode
        [0xF0 + c / 0x40000, 0x80 + c / 0x1000 % 0x40, 0x80 + c / 0x40 % 0x40, 0x80 + c % 0x40] =
      some [Char.ofNatAux c h] := by
  have step : ∀ b b1 b2 b3 : Nat, utf8_decode [b, b1, b2, b3] =
      (if b < 0x80 then cons_decoded b (utf8_decode [b1, b2, b3]) else
       if b < 0xC0 then none else
       if b < 0xE0 then
         (if 0x80 ≤ b1 ∧ b1 < 0xC0 then
            (if (b - 0xC0) * 0x40 + (b1 - 0x80) < 0x80 then none
             else cons_decoded ((b - 0xC0) * 0x40 + (b1 - 0x80)) (utf8_decode [b2, b3]))
          else none)
       else
       if b < 0xF0 then
         (if (0x80 ≤ b1 ∧ b1 < 0xC0) ∧ (0x80 ≤ b2 ∧ b2 < 0xC0) then
            (if (b - 0xE0) * 0x1000 + (b1 - 0x80) * 0x40 + (b2 - 0x80) < 0x800 then none
             else cons_decoded ((b - 0xE0) * 0x1000 + (b1 - 0x80) * 0x40 + (b2 - 0x80))
               (utf8_decode [b3]))
          else none)
       else
       if b < 0xF8 then
         (if (0x80 ≤ b1 ∧ b1 < 0xC0) ∧ (0x80 ≤ b2 ∧ b2 < 0xC0) ∧ (0x80 ≤ b3 ∧ b3 < 0xC0) then
            (if (b - 0xF0) * 0x40000 + (b1 - 0x80) * 0x1000 + (b2 - 0x80) * 0x40 + (b3 - 0x80)
                < 0x10000 then none
             else cons_decoded
               ((b - 0xF0) * 0x40000 + (b1 - 0x80) * 0x1000 + (b2 - 0x80) * 0x40 + (b3 - 0x80))
               (utf8_decode []))
          else none)
       else none) := fun b b1 b2 b3 => rfl
  have e : (0xF0 + c / 0x40000 - 0xF0) * 0x40000 + (0x80 + c / 0x1000 % 0x40 - 0x80) * 0x1000 +
      (0x80 + c / 0x40 % 0x40 - 0x80) * 0x40 + (0x80 + c % 0x40 - 0x80) = c := by omega
  rw [step, if_neg (by omega), if_neg (by omega), if_neg (by omega), if_neg (by omega),
    if_pos (by omega), if_pos (by refine ⟨⟨?_, ?_⟩, ⟨?_, ?_⟩, ?_, ?_⟩ <;> omega), e,
    if_neg (by omega), decode_nil, cons_decoded, char_from_u32, dif_pos h]
  rfl

/-- Round trip through the UTF-8 codec: decoding the minimal encoding of
a valid scalar value yields exactly that character. -/
lemma decode_encode (c : Nat) (h : Nat.isValidChar c) :
    utf8_decode (utf8_encode c) = some [Char.ofNatAux c h] := by
  rcases Nat.lt_or_ge c 0x80 with hc | hc
  · rw [utf8_encode, if_pos hc]
    exact decode_one c h hc
  · rcases Nat.lt_or_ge c 0x800 with hc2 | hc2
    · rw [utf8_encode, if_neg (by omega), if_pos hc2]
      exact decode_two c h hc hc2
    · rcases Nat.lt_or_ge c 0x10000 with hc3 | hc3
      · rw [utf8_encode, if_neg (by omega), if_neg (by omega), if_pos hc3]
        exact decode_three c h hc2 hc3
      · have hub : c < 0x110000 := by
          rcases h with h | ⟨_, h⟩ <;> omega
        rw [utf8_encode, if_neg (by omega), if_neg (by omega), if_neg (by omega)]
        exact decode_four c h hc3 hub

/-- C1: for every u32 code point c, `is_rune_unicode_scalar c` is true
exactly when c is at most 0x10FFFF and c is not in the surrogate block
0xD800..0xDFFF. -/
theorem claim1_rune_unicode_scalar (c : Nat) (hc : c < 2 ^ 32) :
    is_rune_unicode_scalar c = true ↔ (c ≤ 0x10FFFF ∧ ¬(0xD800 ≤ c ∧ c ≤ 0xDFFF)) := by
  rw [scalar_iff]
  simp only [Nat.isValidChar]
  omega

/-- Witness for C1 at the concrete code point 0x41. -/
theorem claim1_w : is_rune_unicode_scalar 0x41 = true ↔
    (0x41 ≤ 0x10FFFF ∧ ¬(0xD800 ≤ 0x41 ∧ 0x41 ≤ 0xDFFF)) :=
  claim1_rune_unicode_scalar 0x41 (by decide)

/-- C2: `is_rune_xml_char c` is true exactly when c lies in the union of
the `XML_CHARS` ranges {0x9}, {0xA}, {0xD}, [0x20,0xD7FF], [0xE000,0xFFFD],
[0x10000,0x10FFFF], and `is_char_xml_char ch` is true exactly when the
numeric value of ch lies in the same union. -/
theorem claim2_xml_char (c : Nat) (ch : Char) (_hc : c < 2 ^ 32) :
    (is_rune_xml_char c = true ↔
      (c = 0x9 ∨ c = 0xA ∨ c = 0xD ∨ (0x20 ≤ c ∧ c ≤ 0xD7FF) ∨
        (0xE000 ≤ c ∧ c ≤ 0xFFFD) ∨ (0x10000 ≤ c ∧ c ≤ 0x10FFFF))) ∧
    (is_char_xml_char ch = true ↔
      (ch.toNat = 0x9 ∨ ch.toNat = 0xA ∨ ch.toNat = 0xD ∨
        (0x20 ≤ ch.toNat ∧ ch.toNat ≤ 0xD7FF) ∨
        (0xE000 ≤ ch.toNat ∧ ch.toNat ≤ 0xFFFD) ∨
        (0x10000 ≤ ch.toNat ∧ ch.toNat ≤ 0x10FFFF))) := by
  refine ⟨xml_iff c, ?_⟩
  rw [is_char_xml_char, subset_contains_char]
  exact xml_iff ch.toNat

/-- Witness for C2 at the concrete code point 0x9 and character A. -/
theorem claim2_w : is_rune_xml_char 0x9 = true ↔
    ((0x9 : Nat) = 0x9 ∨ (0x9 : Nat) = 0xA ∨ (0x9 : Nat) = 0xD ∨
      (0x20 ≤ (0x9 : Nat) ∧ (0x9 : Nat) ≤ 0xD7FF) ∨
      (0xE000 ≤ (0x9 : Nat) ∧ (0x9 : Nat) ≤ 0xFFFD) ∨
      (0x10000 ≤ (0x9 : Nat) ∧ (0x9 : Nat) ≤ 0x10FFFF)) :=
  (claim2_xml_char 0x9 'A' (by decide)).1

/-- C3: `is_rune_unicode_assignable c` is true exactly when c lies in the
union of the `UNICODE_ASSIGNABLES` ranges {0x9}, {0xA}, {0xD}, [0x20,0x7E],
[0xA0,0xD7FF], [0xE000,0xFDCF], [0xFDF0,0xFFFD], and for each plane p
from 1 to 16 the range [p*0x10000, p*0x10000+0xFFFD]; and
`is_char_unicode_assignable ch` is true exactly when the numeric value
of ch lies in the same union. -/
theorem claim3_unicode_assignable (c : Nat) (ch : Char) (_hc : c < 2 ^ 32) :
    (is_rune_unicode_assignable c = true ↔
      (c = 0x9 ∨ c = 0xA ∨ c = 0xD ∨ (0x20 ≤ c ∧ c ≤ 0x7E) ∨
        (0xA0 ≤ c ∧ c ≤ 0xD7FF) ∨ (0xE000 ≤ c ∧ c ≤ 0xFDCF) ∨
        (0xFDF0 ≤ c ∧ c ≤ 0xFFFD) ∨
        (∃ p, 1 ≤ p ∧ p ≤ 16 ∧ p * 0x10000 ≤ c ∧ c ≤ p * 0x10000 + 0xFFFD))) ∧
    (is_char_unicode_assignable ch = true ↔
      (ch.toNat = 0x9 ∨ ch.toNat = 0xA ∨ ch.toNat = 0xD ∨
        (0x20 ≤ ch.toNat ∧ ch.toNat ≤ 0x7E) ∨
        (0xA0 ≤ ch.toNat ∧ ch.toNat ≤ 0xD7FF) ∨
        (0xE000 ≤ ch.toNat ∧ ch.toNat ≤ 0xFDCF) ∨
        (0xFDF0 ≤ ch.toNat ∧ ch.toNat ≤ 0xFFFD) ∨
        (∃ p, 1 ≤ p ∧ p ≤ 16 ∧ p * 0x10000 ≤ ch.toNat ∧
          ch.toNat ≤ p * 0x10000 + 0xFFFD))) := by
  constructor
  · rw [plane_expand]
    exact assignable_explicit c
  · rw [plane_expand, is_char_unicode_assignable, subset_contains_char]
    exact assignable_explicit ch.toNat

/-- Witness for C3: the theorem applied at the noncharacter 0xFFFE shows
the validator rejects it. -/
theorem claim3_w : is_rune_unicode_assignable 0xFFFE = false :=
  by
  have h := (claim3_unicode_assignable 0xFFFE 'A' (by decide)).1
  cases hb : is_rune_unicode_assignable 0xFFFE
  · rfl
  · rcases h.mp hb with h' | h' | h' | h' | h' | h' | h' | ⟨p, h1, h16, hlo, hhi⟩ <;> omega

/-- C4: every u32 code point above 0x10FFFF is rejected by all three
code-point validators. -/
theorem claim4_above_max (c : Nat) (_hc : c < 2 ^ 32) (h : 0x10FFFF < c) :
    is_rune_unicode_scalar c = false ∧ is_rune_xml_char c = false ∧
      is_rune_unicode_assignable c = false := by
  refine ⟨?_, ?_, ?_⟩
  · rw [← Bool.not_eq_true, scalar_iff]
    simp only [Nat.isValidChar]
    omega
  · rw [← Bool.not_eq_true, xml_iff]
    omega
  · rw [← Bool.not_eq_true, assignable_explicit]
    omega

/-- Witness for C4 at the maximum u32 value 0xFFFFFFFF. -/
theorem claim4_w : is_rune_unicode_scalar 0xFFFFFFFF = false ∧
    is_rune_xml_char 0xFFFFFFFF = false ∧ is_rune_unicode_assignable 0xFFFFFFFF = false :=
  claim4_above_max 0xFFFFFFFF (by decide) (by decide)

/-- C5: `is_string_xml_chars` holds exactly when every character of the
string satisfies `is_char_xml_char`, `is_string_unicode_assignables`
holds exactly when every character satisfies
`is_char_unicode_assignable`, and both accept the empty string. -/
theorem claim5_text_validators (s : List Char) :
    (is_string_xml_chars s = true ↔ ∀ ch ∈ s, is_char_xml_char ch = true) ∧
    (is_string_unicode_assignables s = true ↔
      ∀ ch ∈ s, is_char_unicode_assignable ch = true) ∧
    is_string_xml_chars [] = true ∧ is_string_unicode_assignables [] = true :=
  ⟨List.all_eq_true, List.all_eq_true, rfl, rfl⟩

/-- C6: `is_string_unicode_scalars` returns true on every string,
independently of its contents. -/
theorem claim6_string_scalars (s : List Char) : is_string_unicode_scalars s = true := rfl

/-- C7: on every byte sequence rejected by the strict UTF-8 decoder, all
three byte-level validators return false; being total Lean functions,
they signal no error on any input. -/
theorem claim7_malformed (b : List Nat) (_hb : ∀ x ∈ b, x < 256)
    (hdec : utf8_decode b = none) :
    is_utf8_unicode_scalars b = false ∧ is_utf8_xml_chars b = false ∧
      is_utf8_unicode_assignables b = false := by
  refine ⟨?_, ?_, ?_⟩
  · rw [is_utf8_unicode_scalars, hdec]
    rfl
  · rw [is_utf8_xml_chars, hdec]
  · rw [is_utf8_unicode_assignables, hdec]

/-- Witness for C7 at the three-byte encoding of the surrogate 0xD800. -/
theorem claim7_w :
    (∀ x ∈ [0xED, 0xA0, 0x80], x < 256) ∧
      (is_utf8_unicode_scalars [0xED, 0xA0, 0x80] = false ∧
        is_utf8_xml_chars [0xED, 0xA0, 0x80] = false ∧
        is_utf8_unicode_assignables [0xED, 0xA0, 0x80] = false) :=
  ⟨by decide, claim7_malformed [0xED, 0xA0, 0x80] (by decide) (by decide)⟩

/-- C8: on every byte sequence that decodes successfully to a string s,
`is_utf8_unicode_scalars` is true with no further scan,
`is_utf8_xml_chars` agrees with `is_string_xml_chars s`,
`is_utf8_unicode_assignables` agrees with
`is_string_unicode_assignables s`, and the empty byte sequence is valid
for all three subsets. -/
theorem claim8_decoded (b : List Nat) (s : List Char) (_hb : ∀ x ∈ b, x < 256)
    (hdec : utf8_decode b = some s) :
    is_utf8_unicode_scalars b = true ∧
      is_utf8_xml_chars b = is_string_xml_chars s ∧
      is_utf8_unicode_assignables b = is_string_unicode_assignables s ∧
      is_utf8_unicode_scalars [] = true ∧
      is_utf8_xml_chars [] = true ∧
      is_utf8_unicode_assignables [] = true := by
  refine ⟨?_, ?_, ?_, rfl, rfl, rfl⟩
  · rw [is_utf8_unicode_scalars, hdec]
    rfl
  · rw [is_utf8_xml_chars, hdec]
  · rw [is_utf8_unicode_assignables, hdec]

/-- Witness for C8 at the one-byte sequence encoding the letter A. -/
theorem claim8_w :
    is_utf8_unicode_scalars [0x41] = true ∧
      is_utf8_xml_chars [0x41] = is_string_xml_chars ['A'] ∧
      is_utf8_unicode_assignables [0x41] = is_string_unicode_assignables ['A'] ∧
      is_utf8_unicode_scalars [] = true ∧
      is_utf8_xml_chars [] = true ∧
      is_utf8_unicode_assignables [] = true :=
  claim8_decoded [0x41] ['A'] (by decide) (by decide)

/-- C9: for every code point accepted by a subset code-point validator,
encoding it to UTF-8 and classifying the bytes with the corresponding
byte-level validator yields the same accept outcome as the direct
code-point check. -/
theorem claim9_round_trip (c : Nat) (_hc : c < 2 ^ 32) :
    (is_rune_unicode_scalar c = true →
      is_utf8_unicode_scalars (utf8_encode c) = is_rune_unicode_scalar c) ∧
    (is_rune_xml_char c = true →
      is_utf8_xml_chars (utf8_encode c) = is_rune_xml_char c) ∧
    (is_rune_unicode_assignable c = true →
      is_utf8_unicode_assignables (utf8_encode c) = is_rune_unicode_assignable c) := by
  refine ⟨?_, ?_, ?_⟩
  · intro hsc
    have hv : Nat.isValidChar c := (scalar_iff c).mp hsc
    rw [hsc, is_utf8_unicode_scalars, decode_encode c hv]
    rfl
  · intro hx
    have hv : Nat.isValidChar c := by
      have hu := (xml_iff c).mp hx
      simp only [Nat.isValidChar]
      omega
    rw [hx, is_utf8_xml_chars, decode_encode c hv]
    simp only [is_string_xml_chars]
    simp only [List.all_cons, List.all_nil, Bool.and_true]
    rw [is_char_xml_char, subset_contains_char, toNat_ofNatAux]
    exact hx
  · intro ha
    have hv : Nat.isValidChar c := by
      have hu := (assignable_explicit c).mp ha
      simp only [Nat.isValidChar]
      omega
    rw [ha, is_utf8_unicode_assignables, decode_encode c hv]
    simp only [is_string_unicode_assignables]
    simp only [List.all_cons, List.all_nil, Bool.and_true]
    rw [is_char_unicode_assignable, subset_contains_char, toNat_ofNatAux]
    exact ha

/-- Witness for C9 at the concrete code point 0x41. -/
theorem claim9_w :
    is_utf8_unicode_scalars (utf8_encode 0x41) = is_rune_unicode_scalar 0x41 ∧
      is_utf8_xml_chars (utf8_encode 0x41) = is_rune_xml_char 0x41 ∧
      is_utf8_unicode_assignables (utf8_encode 0x41) = is_rune_unicode_assignable 0x41 :=
  ⟨(claim9_round_trip 0x41 (by decide)).1 (by decide),
    (claim9_round_trip 0x41 (by decide)).2.1 (by decide),
    (claim9_round_trip 0x41 (by decide)).2.2 (by decide)⟩

/-- C10: the Assignable set is contained in the XmlChar set, which is
contained in the Scalar set. -/
theorem claim10_inclusion (c : Nat) (_hc : c < 2 ^ 32) :
    (is_rune_unicode_assignable c = true → is_rune_xml_char c = true) ∧
      (is_rune_xml_char c = true → is_rune_unicode_scalar c = true) := by
  constructor
  · intro h
    rw [xml_iff]
    have hu := (assignable_explicit c).mp h
    omega
  · intro h
    rw [scalar_iff]
    have hu := (xml_iff c).mp h
    simp only [Nat.isValidChar]
    omega

/-- Witness for C10 at the concrete code point 0x41. -/
theorem claim10_w :
    is_rune_xml_char 0x41 = true ∧ is_rune_unicode_scalar 0x41 = true :=
  ⟨(claim10_inclusion 0x41 (by decide)).1 (by decide),
    (claim10_inclusion 0x41 (by decide)).2 (by decide)⟩
